import Mathlib

/-!
Verification of the calibrator pipeline of src/app.js.

The calibrator section of app.js holds a single mutable state record
(status, signalsDraft, rawInput, runs, error) and five operations on it:
deriveTextSignals, deriveMetrics, interpret (pure helpers) and
updateSignal, updateRawInput, submitCalibration, resetAll (actions).
This file embeds those functions shallowly: JavaScript numbers flowing
through the pipeline are modelled as rationals (every value stored in the
state is finite, and the arithmetic the code performs on the inputs the
claims use is exact in both models), possibly non-finite inputs to
updateSignal are modelled by the JSNumber type, strings are Lean strings
processed as their character lists, and Date.now() is an explicit
numeric parameter of submitCalibration.  The DOM render path is out of
scope per the specification; the calls to render() made by the actions do
not touch the state and are dropped.
-/

namespace Calibrator

/-- Character codes of the JavaScript whitespace class: the characters
matched by a whitespace regular expression class and stripped by trim
(tab, line feed, vertical tab, form feed, carriage return, space, no-break
space, ogham space mark, the en-quad..hair-space range, line separator,
paragraph separator, narrow no-break space, medium mathematical space,
ideographic space, byte order mark). -/
def jsWhitespaceCodes : List Nat :=
  [9, 10, 11, 12, 13, 32, 160, 5760,
   8192, 8193, 8194, 8195, 8196, 8197, 8198, 8199, 8200, 8201, 8202,
   8232, 8233, 8239, 8287, 12288, 65279]

/-- Whether a character is JavaScript whitespace. -/
def isJsSpace (c : Char) : Bool := jsWhitespaceCodes.contains c.toNat

/-- Whether a character is one of the sentence delimiters of app.js: the
character class of period, exclamation mark and question mark. -/
def isSentenceDelim (c : Char) : Bool := c = '.' || c = '!' || c = '?'

/-- Helper for splitRuns: acc holds the current token reversed. -/
def splitRunsAux (p : Char → Bool) : List Char → List Char → List (List Char)
  | [], acc => if acc.isEmpty then [] else [acc.reverse]
  | c :: cs, acc =>
    if p c then
      if acc.isEmpty then splitRunsAux p cs []
      else acc.reverse :: splitRunsAux p cs []
    else splitRunsAux p cs (c :: acc)

/-- Maximal runs of characters on which p is false.  This is what
text.split on a one-or-more character-class regular expression followed by
dropping empty pieces produces: splitting on maximal delimiter runs keeps
exactly the non-empty pieces between them. -/
def splitRuns (p : Char → Bool) (cs : List Char) : List (List Char) :=
  splitRunsAux p cs []

/-- JavaScript trim on a character list: whitespace stripped from both ends. -/
def jsTrimChars (cs : List Char) : List Char :=
  ((cs.dropWhile isJsSpace).reverse.dropWhile isJsSpace).reverse

/-- JavaScript trim on a string. -/
def jsTrim (s : String) : String := ⟨jsTrimChars s.data⟩

/-- The fixed positive lexicon of deriveTextSignals. -/
def positiveWords : List String := ["good", "clear", "success", "positive", "ready"]

/-- The fixed negative lexicon of deriveTextSignals. -/
def negativeWords : List String := ["bad", "confused", "fail", "error", "blocked"]

/-- Lower-casing of a word as w.toLowerCase() does on the basic latin
range; the lexicons are all-lowercase ascii, so only that range can match. -/
def lowerWord (w : List Char) : String := ⟨w.map Char.toLower⟩

/-- deriveTextSignals of app.js: words are the text split on whitespace
runs with empties dropped, sentences are the text split on period,
exclamation-mark and question-mark runs with each piece trimmed and
empties dropped, sentiment adds one per positive-lexicon word and
subtracts one per negative-lexicon word, and the result vector is
[text length, word count, sentence count, sentiment]. -/
def deriveTextSignals (text : String) : List ℚ :=
  let words := splitRuns isJsSpace text.data
  let sentences :=
    ((splitRuns isSentenceDelim text.data).map jsTrimChars).filter (fun s => !s.isEmpty)
  let sentiment : ℤ := words.foldl
    (fun acc w =>
      let lw := lowerWord w
      let acc1 := if positiveWords.contains lw then acc + 1 else acc
      if negativeWords.contains lw then acc1 - 1 else acc1) 0
  [(text.data.length : ℚ), (words.length : ℚ), (sentences.length : ℚ), (sentiment : ℚ)]

/-- The metrics record of app.js. -/
structure Metrics where
  min : ℚ
  max : ℚ
  mean : ℚ
  count : ℕ
deriving DecidableEq

/-- Number(x.toFixed(2)): rounding to two decimal places; on a tie
toFixed picks the larger numerator, which is rounding half toward
positive infinity: the floor of the scaled value plus one half (the
standard round function, unfolded by round_eq). -/
def round2 (q : ℚ) : ℚ := ((⌊q * 100 + 1 / 2⌋ : ℤ) : ℚ) / 100

/-- deriveMetrics of app.js: min and max start at signals[0] and fold over
the whole list, sum starts at 0, mean is the two-decimal rounding of
sum divided by the length, count is the length.  The forEach single pass
of the source computes exactly these folds.  Callers always pass a
non-empty list (the draft is never empty and derived signals always
contribute four values); on the empty list the source would read an
undefined signals[0], modelled here by the irrelevant default 0. -/
def deriveMetrics (signals : List ℚ) : Metrics :=
  { min := signals.foldl min (signals.headD 0),
    max := signals.foldl max (signals.headD 0),
    mean := round2 (signals.foldl (· + ·) 0 / (signals.length : ℚ)),
    count := signals.length }

/-- The qualitative levels used by interpret. -/
inductive Level
  | low
  | medium
  | high
deriving DecidableEq

/-- The readiness labels used by interpret. -/
inductive Readiness
  | ready
  | notReady
deriving DecidableEq

/-- The interpretation record of app.js. -/
structure Interpretation where
  pressure : Level
  load : Level
  clarity : Level
  readiness : Readiness
deriving DecidableEq

/-- interpret of app.js.  A missing metrics record yields the fixed
baseline.  textLength is textSignals[0] with 0 as the or-else fallback
(0 is falsy and maps to 0, so the fallback only matters for a short
list); sentenceCount is textSignals[2] with 1 as the or-else fallback,
and a stored 0 is falsy so it too becomes 1.  The three threshold chains
and the readiness conjunction follow the source line for line. -/
def interpret (metrics : Option Metrics) (textSignals : List ℚ) : Interpretation :=
  match metrics with
  | none =>
    { pressure := .low, load := .low, clarity := .low, readiness := .notReady }
  | some m =>
    let textLength := textSignals.getD 0 0
    let sentenceCount := if textSignals.getD 2 0 = 0 then 1 else textSignals.getD 2 0
    let pressure :=
      if m.mean + textLength > 200 then Level.high
      else if m.mean + textLength > 80 then Level.medium
      else Level.low
    let load :=
      if (m.count : ℚ) + sentenceCount > 15 then Level.high
      else if (m.count : ℚ) + sentenceCount > 8 then Level.medium
      else Level.low
    let clarity :=
      if sentenceCount > 6 then Level.low
      else if sentenceCount > 3 then Level.medium
      else Level.high
    let readiness :=
      if pressure ≠ Level.high ∧ clarity = Level.high then Readiness.ready
      else Readiness.notReady
    { pressure := pressure, load := load, clarity := clarity, readiness := readiness }

/-- The status values of the session state comment of app.js. -/
inductive Status
  | idle
  | running
  | complete
  | error
deriving DecidableEq

/-- A calibration run record as unshifted by submitCalibration. -/
structure Run where
  id : ℕ
  timestamp : ℕ
  signals : List ℚ
  metrics : Metrics
  derived : List ℚ
deriving DecidableEq

/-- The mutable session state of app.js. -/
structure CalState where
  status : Status
  signalsDraft : List ℚ
  rawInput : String
  runs : List Run
  error : Option String
deriving DecidableEq

/-- The initial state literal of app.js. -/
def initialState : CalState :=
  { status := .idle, signalsDraft := [10, 20, 30], rawInput := "", runs := [], error := none }

/-- A JavaScript number as it may arrive at updateSignal: a finite value,
NaN, or an infinity.  Number.isFinite accepts exactly the first form. -/
inductive JSNumber
  | num (q : ℚ)
  | nan
  | posInf
  | negInf
deriving DecidableEq

/-- Number.isFinite. -/
def JSNumber.isFinite : JSNumber → Bool
  | .num _ => true
  | _ => false

/-- updateSignal of app.js: a non-finite value returns early with no state
change; a finite value overwrites signalsDraft[index].  The specification
declares out-of-range indices a precondition violation (callers supply
indices of rendered rows), so the in-range assignment is what is
modelled; List.set is that assignment for every in-range index. -/
def updateSignal (s : CalState) (index : ℕ) (value : JSNumber) : CalState :=
  match value with
  | .num q => { s with signalsDraft := s.signalsDraft.set index q }
  | _ => s

/-- updateRawInput of app.js: unconditionally overwrites the draft. -/
def updateRawInput (s : CalState) (value : String) : CalState :=
  { s with rawInput := value }

/-- submitCalibration of app.js with Date.now() passed in as now.  A blank
(trimmed-empty) rawInput only sets the error message and returns — the
status field is not touched on that path.  Otherwise the source sets
status running and error null, derives signals from rawInput, concatenates
draft then derived, aggregates metrics, unshifts a run whose id is the
current (already trimmed) log length plus one, slices the log to five,
clears rawInput and sets status complete; the record below is that final
state. -/
def submitCalibration (now : ℕ) (s : CalState) : CalState :=
  if (jsTrim s.rawInput).isEmpty then
    { s with error := some "Raw Input is required to run calibration." }
  else
    let derived := deriveTextSignals s.rawInput
    let signals := s.signalsDraft ++ derived
    let metrics := deriveMetrics signals
    let newRun : Run :=
      { id := s.runs.length + 1, timestamp := now,
        signals := signals, metrics := metrics, derived := derived }
    { s with
      status := .complete,
      rawInput := "",
      runs := (newRun :: s.runs).take 5,
      error := none }

/-- resetAll of app.js: every field is restored to its initial value. -/
def resetAll (_s : CalState) : CalState :=
  { status := .idle, signalsDraft := [10, 20, 30], rawInput := "", runs := [], error := none }

/-- The mutation surface of the session: one user-triggered event. -/
inductive Op
  | updateSignal (index : ℕ) (value : JSNumber)
  | updateRawInput (value : String)
  | submit (now : ℕ)
  | reset
deriving DecidableEq

/-- One event applied to the state. -/
def applyOp (s : CalState) : Op → CalState
  | .updateSignal i v => updateSignal s i v
  | .updateRawInput v => updateRawInput s v
  | .submit now => submitCalibration now s
  | .reset => resetAll s

/-- The state after a sequence of events starting from the initial state. -/
def runOps (ops : List Op) : CalState := ops.foldl applyOp initialState

/-- Six successful submits: the raw input is set before each submit since
a successful submit clears it. -/
def sixSubmitOps : List Op :=
  [.updateRawInput "go", .submit 1, .updateRawInput "go", .submit 2,
   .updateRawInput "go", .submit 3, .updateRawInput "go", .submit 4,
   .updateRawInput "go", .submit 5, .updateRawInput "go", .submit 6]

/-- Seven successful submits. -/
def sevenSubmitOps : List Op := sixSubmitOps ++ [.updateRawInput "go", .submit 7]

/-- A state still carrying the validation error of an earlier blank-input
submit, with a non-blank draft ready to submit. -/
def erroredState : CalState :=
  { initialState with
    rawInput := "go",
    error := some "Raw Input is required to run calibration." }

/-- The effect of a successful submit: the new run is prepended, its
signal vector is the manual draft first with the derived signals appended,
its metrics aggregate that concatenation, the runs behind it are the
previous log trimmed to four entries, the raw input draft is cleared, the
status is complete, and the manual signal draft is untouched. -/
def submitProps (now : ℕ) (s : CalState) : Prop :=
  (submitCalibration now s).runs.head? = some
    { id := s.runs.length + 1, timestamp := now,
      signals := s.signalsDraft ++ deriveTextSignals s.rawInput,
      metrics := deriveMetrics (s.signalsDraft ++ deriveTextSignals s.rawInput),
      derived := deriveTextSignals s.rawInput } ∧
  (submitCalibration now s).runs.tail = s.runs.take 4 ∧
  (submitCalibration now s).rawInput = "" ∧
  (submitCalibration now s).status = Status.complete ∧
  (submitCalibration now s).signalsDraft = s.signalsDraft

/-- C1 (counterexample): submitting the whitespace-only raw input from the
initial state leaves the status idle — it is not set to error, contrary to
the claim. -/
theorem blank_submit_status_not_error :
    (jsTrim ({ initialState with rawInput := "   " } : CalState).rawInput).isEmpty = true ∧
    (submitCalibration 0 { initialState with rawInput := "   " }).status = Status.idle ∧
    Status.idle ≠ Status.error := by decide

/-- C1 (amended): submit with empty or whitespace-only raw input populates
the error message and changes nothing else — no new run, the draft raw
input, the signal draft and, in particular, the status are all left
unchanged. -/
theorem blank_submit_sets_error_only (now : ℕ) (s : CalState)
    (h : (jsTrim s.rawInput).isEmpty = true) :
    submitCalibration now s =
      { s with error := some "Raw Input is required to run calibration." } := by
  simp [submitCalibration, h]

/-- C1 (witness): the amended statement at the whitespace-only input. -/
theorem blank_submit_sets_error_only_witness :
    (jsTrim ({ initialState with rawInput := "   " } : CalState).rawInput).isEmpty = true ∧
    submitCalibration 0 { initialState with rawInput := "   " } =
      { ({ initialState with rawInput := "   " } : CalState) with
        error := some "Raw Input is required to run calibration." } :=
  ⟨by decide, blank_submit_sets_error_only 0 _ (by decide)⟩

/-- C2 (counterexample): after seven successful submits the run ids are
[6, 6, 5, 4, 3] — the id 6 of the newest run equals the id of a previously
created run, so ids are neither strictly increasing nor equal to the
count of runs created so far plus one. -/
theorem run_id_reused_after_trim :
    (runOps sevenSubmitOps).runs.map Run.id = [6, 6, 5, 4, 3] := by decide

/-- C2 (amended): the id of a newly created run equals the current
(already trimmed) run-log length plus one, so ids increase strictly only
until the log reaches its cap of five; after that every new run receives
id six and ids are reused. -/
theorem run_id_eq_trimmed_count_succ (now : ℕ) (s : CalState)
    (h : (jsTrim s.rawInput).isEmpty = false) :
    ((submitCalibration now s).runs.map Run.id).head? = some (s.runs.length + 1) := by
  simp [submitCalibration, h]

/-- C2 (witness): the amended statement at a concrete non-blank input. -/
theorem run_id_eq_trimmed_count_succ_witness :
    (jsTrim ({ initialState with rawInput := "go" } : CalState).rawInput).isEmpty = false ∧
    ((submitCalibration 0 { initialState with rawInput := "go" }).runs.map Run.id).head? =
      some (({ initialState with rawInput := "go" } : CalState).runs.length + 1) :=
  ⟨by decide, run_id_eq_trimmed_count_succ 0 _ (by decide)⟩

/-- C5: submitting the raw input Hello world. on the default signal draft
derives [12, 2, 1, 0] and records a run over the concatenated signal
vector [10, 20, 30, 12, 2, 1, 0] with metrics min 0, max 30, mean 10.71
and count 7. -/
theorem hello_world_submit :
    deriveTextSignals "Hello world." = [12, 2, 1, 0] ∧
    (submitCalibration 0 { initialState with rawInput := "Hello world." }).runs.map Run.derived
      = [[12, 2, 1, 0]] ∧
    (submitCalibration 0 { initialState with rawInput := "Hello world." }).runs.map Run.signals
      = [[10, 20, 30, 12, 2, 1, 0]] ∧
    (submitCalibration 0 { initialState with rawInput := "Hello world." }).runs.map Run.metrics
      = [{ min := 0, max := 30, mean := 1071 / 100, count := 7 }] := by
  refine ⟨by decide, by decide, by decide, ?_⟩
  have hcond :
      (jsTrim ({ initialState with rawInput := "Hello world." } : CalState).rawInput).isEmpty
        = false := by decide
  have hder : deriveTextSignals "Hello world." = [12, 2, 1, 0] := by decide
  have hfloor : ⌊((75 : ℚ) / 7) * 100 + 1 / 2⌋ = 1071 := by
    rw [Int.floor_eq_iff]
    norm_num
  have hmet : deriveMetrics ([10, 20, 30, 12, 2, 1, 0] : List ℚ)
      = { min := 0, max := 30, mean := 1071 / 100, count := 7 } := by
    simp only [deriveMetrics, round2, Metrics.mk.injEq]
    refine ⟨by norm_num [min_def], by norm_num [max_def], ?_, by norm_num⟩
    have hsum : List.foldl (· + ·) (0 : ℚ) [10, 20, 30, 12, 2, 1, 0] = 75 := by norm_num
    have hlen : (([10, 20, 30, 12, 2, 1, 0] : List ℚ)).length = 7 := by norm_num
    rw [hsum, hlen]
    norm_num [hfloor]
  simp [submitCalibration, hcond, hder, initialState, hmet]

/-- C8: after any sequence of events from the initial state, reset
restores the signal draft to [10, 20, 30], clears the raw input, empties
the run log, clears the error and sets the status to idle. -/
theorem resetAll_restores_initial (ops : List Op) :
    (resetAll (runOps ops)).signalsDraft = [10, 20, 30] ∧
    (resetAll (runOps ops)).rawInput = "" ∧
    (resetAll (runOps ops)).runs = [] ∧
    (resetAll (runOps ops)).error = none ∧
    (resetAll (runOps ops)).status = Status.idle :=
  ⟨rfl, rfl, rfl, rfl, rfl⟩

/-- C9: a non-finite value passed to updateSignal leaves the whole state
unchanged (so no error is surfaced), and a finite value at an in-range
index (out-of-range indices are a precondition violation per the
specification) overwrites exactly that draft entry and nothing else. -/
theorem updateSignal_spec (s : CalState) (index : ℕ) (value : JSNumber) :
    (value.isFinite = false → updateSignal s index value = s) ∧
    (∀ q : ℚ, value = JSNumber.num q → index < s.signalsDraft.length →
      updateSignal s index value = { s with signalsDraft := s.signalsDraft.set index q }) := by
  constructor
  · intro h
    cases value with
    | num q => simp [JSNumber.isFinite] at h
    | nan => rfl
    | posInf => rfl
    | negInf => rfl
  · intro q hq _hidx
    subst hq
    rfl

/-- C9 (witness): NaN is ignored at index 0 of the initial state, and the
finite value 5 overwrites entry 0 of the default draft. -/
theorem updateSignal_spec_witness :
    (JSNumber.nan.isFinite = false ∧ updateSignal initialState 0 JSNumber.nan = initialState) ∧
    (0 < initialState.signalsDraft.length ∧
      updateSignal initialState 0 (JSNumber.num 5) =
        { initialState with signalsDraft := initialState.signalsDraft.set 0 5 }) :=
  ⟨⟨by decide, (updateSignal_spec initialState 0 JSNumber.nan).1 (by decide)⟩,
   ⟨by decide, (updateSignal_spec initialState 0 (JSNumber.num 5)).2 5 rfl (by decide)⟩⟩

/-- C10: a successful submit (non-blank trimmed raw input) sets the
session error to none, clearing any validation error left by an earlier
blank-input submit. -/
theorem submit_success_clears_error (now : ℕ) (s : CalState)
    (h : (jsTrim s.rawInput).isEmpty = false) :
    (submitCalibration now s).error = none := by
  simp [submitCalibration, h]

/-- C10 (witness): a state still carrying the validation error submits
successfully and ends with no error. -/
theorem submit_success_clears_error_witness :
    (jsTrim erroredState.rawInput).isEmpty = false ∧
    (submitCalibration 0 erroredState).error = none :=
  ⟨by decide, submit_success_clears_error 0 erroredState (by decide)⟩

/-- One event never grows the run log past five entries. -/
theorem applyOp_runs_length_le (s : CalState) (op : Op) (h : s.runs.length ≤ 5) :
    (applyOp s op).runs.length ≤ 5 := by
  cases op with
  | updateSignal i v => cases v <;> simpa [applyOp, updateSignal] using h
  | updateRawInput v => simpa [applyOp, updateRawInput] using h
  | reset => simp [applyOp, resetAll]
  | submit now =>
    by_cases hb : (jsTrim s.rawInput).isEmpty
    · simpa [applyOp, submitCalibration, hb] using h
    · simp [applyOp, submitCalibration, hb, List.length_take]

/-- The run-log bound is preserved along any event sequence. -/
theorem foldl_applyOp_runs_length_le (ops : List Op) :
    ∀ s : CalState, s.runs.length ≤ 5 → (ops.foldl applyOp s).runs.length ≤ 5 := by
  induction ops with
  | nil => intro s h; exact h
  | cons op rest ih => intro s h; exact ih (applyOp s op) (applyOp_runs_length_le s op h)

/-- C3: after any sequence of events from the initial state the run log
holds at most five runs, and after six successful submits the retained
runs are the newest five in newest-first order (ids six down to two) with
the oldest run (id one) absent. -/
theorem runLog_bounded_and_six_submit_history :
    (∀ ops : List Op, (runOps ops).runs.length ≤ 5) ∧
    (runOps sixSubmitOps).runs.map Run.id = [6, 5, 4, 3, 2] ∧
    ((runOps sixSubmitOps).runs.map Run.id).contains 1 = false :=
  ⟨fun ops => foldl_applyOp_runs_length_le ops initialState (by decide),
   by decide, by decide⟩

/-- C4: a submit on a non-blank raw input prepends the run built from the
draft signals followed by the derived signals with metrics over that
concatenation, trims the older runs to four, clears the raw input, sets
the status to complete and leaves the signal draft unchanged. -/
theorem submit_success_spec (now : ℕ) (s : CalState)
    (h : (jsTrim s.rawInput).isEmpty = false) : submitProps now s := by
  unfold submitProps
  simp [submitCalibration, h, List.take_succ_cons]

/-- C4 (witness): the successful-submit effect at a concrete state. -/
theorem submit_success_spec_witness :
    (jsTrim ({ initialState with rawInput := "All clear." } : CalState).rawInput).isEmpty
      = false ∧
    submitProps 42 { initialState with rawInput := "All clear." } :=
  ⟨by decide, submit_success_spec 42 _ (by decide)⟩

/-- The pressure component of interpret as a two-threshold conditional. -/
theorem interpret_pressure_eq (m : Metrics) (d : List ℚ) :
    (interpret (some m) d).pressure =
      if m.mean + d.getD 0 0 > 200 then Level.high
      else if m.mean + d.getD 0 0 > 80 then Level.medium
      else Level.low := rfl

/-- C7: the pressure thresholds are strict and checked high-first: a mean
plus text length of exactly 200 yields medium, exactly 201 yields high,
and at most 80 yields low. -/
theorem interpret_pressure_boundaries (m : Metrics) (d : List ℚ) :
    (m.mean + d.getD 0 0 = 200 → (interpret (some m) d).pressure = Level.medium) ∧
    (m.mean + d.getD 0 0 = 201 → (interpret (some m) d).pressure = Level.high) ∧
    (m.mean + d.getD 0 0 ≤ 80 → (interpret (some m) d).pressure = Level.low) := by
  refine ⟨fun h => ?_, fun h => ?_, fun h => ?_⟩
  · rw [interpret_pressure_eq, h]; norm_num
  · rw [interpret_pressure_eq, h]; norm_num
  · rw [interpret_pressure_eq, if_neg (by push_neg; linarith), if_neg (by push_neg; linarith)]

/-- C7 (witness): the three boundary cases at concrete metrics. -/
theorem interpret_pressure_boundaries_witness :
    ((⟨0, 0, 200, 0⟩ : Metrics).mean + ([] : List ℚ).getD 0 0 = 200 ∧
      (interpret (some ⟨0, 0, 200, 0⟩) []).pressure = Level.medium) ∧
    ((⟨0, 0, 201, 0⟩ : Metrics).mean + ([] : List ℚ).getD 0 0 = 201 ∧
      (interpret (some ⟨0, 0, 201, 0⟩) []).pressure = Level.high) ∧
    ((⟨0, 0, 80, 0⟩ : Metrics).mean + ([] : List ℚ).getD 0 0 ≤ 80 ∧
      (interpret (some ⟨0, 0, 80, 0⟩) []).pressure = Level.low) :=
  ⟨⟨by norm_num [List.getD], (interpret_pressure_boundaries ⟨0, 0, 200, 0⟩ []).1
      (by norm_num [List.getD])⟩,
   ⟨by norm_num [List.getD], (interpret_pressure_boundaries ⟨0, 0, 201, 0⟩ []).2.1
      (by norm_num [List.getD])⟩,
   ⟨by norm_num [List.getD], (interpret_pressure_boundaries ⟨0, 0, 80, 0⟩ []).2.2
      (by norm_num [List.getD])⟩⟩

/-- The fold starting value bounds the min fold from above. -/
theorem foldl_min_le_init (l : List ℚ) (a : ℚ) : l.foldl min a ≤ a := by
  induction l generalizing a with
  | nil => simp
  | cons c cs ih =>
    simp only [List.foldl_cons]
    exact le_trans (ih (min a c)) (min_le_left a c)

/-- The min fold is below every member of the list. -/
theorem foldl_min_le_mem (l : List ℚ) (a x : ℚ) (hx : x ∈ l) : l.foldl min a ≤ x := by
  induction l generalizing a with
  | nil => cases hx
  | cons c cs ih =>
    simp only [List.foldl_cons]
    rcases List.mem_cons.mp hx with h | h
    · subst h
      exact le_trans (foldl_min_le_init cs (min a x)) (min_le_right a x)
    · exact ih (min a c) h

/-- The fold starting value bounds the max fold from below. -/
theorem init_le_foldl_max (l : List ℚ) (a : ℚ) : a ≤ l.foldl max a := by
  induction l generalizing a with
  | nil => simp
  | cons c cs ih =>
    simp only [List.foldl_cons]
    exact le_trans (le_max_left a c) (ih (max a c))

/-- The max fold is above every member of the list. -/
theorem mem_le_foldl_max (l : List ℚ) (a x : ℚ) (hx : x ∈ l) : x ≤ l.foldl max a := by
  induction l generalizing a with
  | nil => cases hx
  | cons c cs ih =>
    simp only [List.foldl_cons]
    rcases List.mem_cons.mp hx with h | h
    · subst h
      exact le_trans (le_max_right a x) (init_le_foldl_max cs (max a x))
    · exact ih (max a c) h

/-- A lower bound on every member gives a lower bound on the sum fold. -/
theorem foldl_add_lower (l : List ℚ) (c : ℚ) :
    (∀ x ∈ l, c ≤ x) → ∀ a : ℚ, a + c * l.length ≤ l.foldl (· + ·) a := by
  induction l with
  | nil => intro _ a; simp
  | cons x xs ih =>
    intro hc a
    simp only [List.foldl_cons, List.length_cons]
    have h1 := ih (fun y hy => hc y (List.mem_cons_of_mem x hy)) (a + x)
    have h2 := hc x (List.mem_cons_self x xs)
    push_cast
    push_cast at h1
    linarith

/-- An upper bound on every member gives an upper bound on the sum fold. -/
theorem foldl_add_upper (l : List ℚ) (c : ℚ) :
    (∀ x ∈ l, x ≤ c) → ∀ a : ℚ, l.foldl (· + ·) a ≤ a + c * l.length := by
  induction l with
  | nil => intro _ a; simp
  | cons x xs ih =>
    intro hc a
    simp only [List.foldl_cons, List.length_cons]
    have h1 := ih (fun y hy => hc y (List.mem_cons_of_mem x hy)) (a + x)
    have h2 := hc x (List.mem_cons_self x xs)
    push_cast
    push_cast at h1
    linarith

/-- Two-decimal rounding moves a value by at most one two-hundredth. -/
theorem round2_bounds (q : ℚ) : q - 1 / 200 ≤ round2 q ∧ round2 q ≤ q + 1 / 200 := by
  have hr := abs_sub_round (q * 100)
  rw [round_eq, abs_le] at hr
  unfold round2
  constructor
  · linarith [hr.1, hr.2]
  · linarith [hr.1, hr.2]

/-- C6 (counterexample): on the sequence [0.004, 0.004] the aggregated
min is 1/250 while the rounded mean is 0, so min exceeds mean and the
chain min ≤ mean ≤ max fails. -/
theorem aggregate_mean_below_min :
    ¬ ((deriveMetrics [1 / 250, 1 / 250]).min ≤ (deriveMetrics [1 / 250, 1 / 250]).mean) := by
  have h1 : (deriveMetrics [(1 : ℚ) / 250, 1 / 250]).min = 1 / 250 := by
    show List.foldl min (List.headD [(1 : ℚ) / 250, 1 / 250] 0) [(1 : ℚ) / 250, 1 / 250]
      = 1 / 250
    norm_num [min_def]
  have hf : ⌊((1 : ℚ) / 250 * 100 + 1 / 2)⌋ = 0 := by
    rw [Int.floor_eq_iff]
    norm_num
  have hsl : List.foldl (· + ·) (0 : ℚ) [1 / 250, 1 / 250]
      / ((([1 / 250, 1 / 250] : List ℚ)).length : ℚ) = 1 / 250 := by
    norm_num
  have h2 : (deriveMetrics [(1 : ℚ) / 250, 1 / 250]).mean = 0 := by
    show round2 (List.foldl (· + ·) (0 : ℚ) [1 / 250, 1 / 250]
      / ((([1 / 250, 1 / 250] : List ℚ)).length : ℚ)) = 0
    rw [hsl]
    unfold round2
    rw [hf]
    norm_num
  rw [h1, h2]
  norm_num

/-- C6 (amended): for a non-empty sequence the count is the length, and
the stored mean — the exact arithmetic mean rounded to two decimals — lies
within one two-hundredth of the min-to-max range. -/
theorem aggregate_count_and_mean_bounds (S : List ℚ) (h : S ≠ []) :
    (deriveMetrics S).count = S.length ∧
    (deriveMetrics S).min - 1 / 200 ≤ (deriveMetrics S).mean ∧
    (deriveMetrics S).mean ≤ (deriveMetrics S).max + 1 / 200 := by
  have hlen : (0 : ℚ) < (S.length : ℚ) := by
    have hp : 0 < S.length := List.length_pos.mpr h
    exact_mod_cast hp
  have hmn : ∀ y ∈ S, S.foldl min (S.headD 0) ≤ y :=
    fun y hy => foldl_min_le_mem S _ y hy
  have hmx : ∀ y ∈ S, y ≤ S.foldl max (S.headD 0) :=
    fun y hy => mem_le_foldl_max S _ y hy
  have hlow := foldl_add_lower S _ hmn 0
  have hupp := foldl_add_upper S _ hmx 0
  have hml : S.foldl min (S.headD 0) ≤ S.foldl (· + ·) 0 / (S.length : ℚ) := by
    rw [le_div_iff₀ hlen]
    linarith
  have hmu : S.foldl (· + ·) 0 / (S.length : ℚ) ≤ S.foldl max (S.headD 0) := by
    rw [div_le_iff₀ hlen]
    linarith
  have hb := round2_bounds (S.foldl (· + ·) 0 / (S.length : ℚ))
  refine ⟨rfl, ?_, ?_⟩
  · show S.foldl min (S.headD 0) - 1 / 200
      ≤ round2 (S.foldl (· + ·) 0 / (S.length : ℚ))
    linarith [hb.1]
  · show round2 (S.foldl (· + ·) 0 / (S.length : ℚ))
      ≤ S.foldl max (S.headD 0) + 1 / 200
    linarith [hb.2]

/-- C6 (witness): the amended bounds at the default draft. -/
theorem aggregate_count_and_mean_bounds_witness :
    (([10, 20, 30] : List ℚ) ≠ []) ∧
    ((deriveMetrics [10, 20, 30]).count = ([10, 20, 30] : List ℚ).length ∧
     (deriveMetrics [10, 20, 30]).min - 1 / 200 ≤ (deriveMetrics [10, 20, 30]).mean ∧
     (deriveMetrics [10, 20, 30]).mean ≤ (deriveMetrics [10, 20, 30]).max + 1 / 200) :=
  ⟨by decide, aggregate_count_and_mean_bounds [10, 20, 30] (by decide)⟩

end Calibrator
